import Mathlib

/-!
Shallow embedding of the Job Ingestion, Matching & Tracking Pipeline of the
job-search-automation repository (class `JobSearchAutomation` in the Python
backend implementation).  Python strings are embedded as Lean `String`
(sequences of code points), Python `int` as `ℤ`, dates as integer day counts,
the SQLite `applications` table as a `List` of row structures, and calls to
external collaborators (sklearn TF-IDF vectorization, OpenAI generation) as
explicit outcome parameters, since those libraries are outside the repository.
-/

namespace JobSearch

/-- Embeds the Python slice `s[:n]` (first `n` code points). -/
def pySlice (s : String) (n : Nat) : String := ⟨s.data.take n⟩

/-- Embeds Python `s.lower()` (per-code-point lowering). -/
def pyLower (s : String) : String := ⟨s.data.map Char.toLower⟩

/-- `leadsWith l pat = true` iff `pat` is an initial run of `l`. -/
def leadsWith : List Char → List Char → Bool
  | _, [] => true
  | [], _ :: _ => false
  | c :: cs, p :: ps => c == p && leadsWith cs ps

/-- `subOccurs pat l = true` iff `pat` occurs contiguously somewhere in `l`. -/
def subOccurs (pat : List Char) : List Char → Bool
  | [] => leadsWith [] pat
  | c :: cs => leadsWith (c :: cs) pat || subOccurs pat cs

/-- Embeds the Python substring test `pat in s`. -/
def pyIn (pat s : String) : Bool := subOccurs pat.data s.data

/-- Embeds Python `int(x)` on a nonnegative value: truncation, which on
nonnegative inputs is the floor.  `Rat.floor` is the executable floor. -/
def pyInt (q : ℚ) : ℤ := Rat.floor q

theorem pyInt_eq_floor (q : ℚ) : pyInt q = ⌊q⌋ :=
  (Rat.floor_def' q).trans Rat.floor_def.symm

/-! ## Match Scorer (`calculate_job_match_score`, `simple_keyword_match`) -/

/-- The fixed bonus keyword list of `calculate_job_match_score`. -/
def bonus_keywords : List String :=
  ["business analyst", "requirements", "crm", "sql", "senior",
   "stakeholder", "process", "analysis", "healthcare", "remote"]

/-- Embeds `job_text = f"{job_title} {job_description}".lower()`. -/
def job_text_of (job_title job_description : String) : String :=
  pyLower (job_title ++ " " ++ job_description)

/-- Outcome of the external sklearn TF-IDF vectorization and cosine
similarity: either a similarity value (a real number, embedded as an exact
rational) or the `ValueError` that `fit_transform` raises on a degenerate
vocabulary.  The vectorizer is third-party code, so the pipeline is
parameterized by this outcome. -/
inductive TfidfOutcome where
  | ok (similarity : ℚ)
  | valueError
deriving DecidableEq

/-- Internal failures of the scoring computation that Python surfaces as
exceptions (here: division by zero in `simple_keyword_match` when the
profile skill list is empty). -/
inductive ScoreErr where
  | zeroDivision
deriving DecidableEq

/-- Embeds `bonus_score = sum(5 for keyword in bonus_keywords if keyword in job_text)`. -/
def bonus_score (job_text : String) : ℤ :=
  ((bonus_keywords.filter (fun keyword => pyIn keyword job_text)).map
    (fun _ => (5 : ℤ))).sum

/-- Embeds `simple_keyword_match`: counts profile skills occurring in the
job text and scales to a 0–100 ratio.  `matches / len(user_skills)` raises
`ZeroDivisionError` in Python when the skill list is empty; that exception is
made explicit in the return type.  Python `int(x)` on the nonnegative float
is embedded as the rational floor. -/
def simple_keyword_match (job_text : String) (user_skills : List String) :
    Except ScoreErr ℤ :=
  let job_text_lower := pyLower job_text
  let matchCount : ℕ :=
    (user_skills.filter (fun skill => pyIn (pyLower skill) job_text_lower)).length
  if user_skills.length = 0 then .error .zeroDivision
  else .ok (min (pyInt (((matchCount : ℚ) / (user_skills.length : ℚ)) * 100)) 100)

/-- The body of `calculate_job_match_score` inside its outer `try`:
on a similarity value, `min(int(similarity*100) + bonus, 100)`; on the
vectorizer's `ValueError`, fall back to `simple_keyword_match` (whose own
exception propagates to the outer handler). -/
def scoreAttempt (tfidf : TfidfOutcome) (job_description job_title : String)
    (user_skills : List String) : Except ScoreErr ℤ :=
  let job_text := job_text_of job_title job_description
  match tfidf with
  | .ok similarity =>
      let base_score : ℤ := pyInt (similarity * 100)
      .ok (min (base_score + bonus_score job_text) 100)
  | .valueError => simple_keyword_match job_text user_skills

/-- Embeds `calculate_job_match_score`: the outer `except Exception` handler
turns any internal failure into a score of 0. -/
def calculate_job_match_score (tfidf : TfidfOutcome)
    (job_description job_title : String) (user_skills : List String) : ℤ :=
  match scoreAttempt tfidf job_description job_title user_skills with
  | .ok v => v
  | .error _ => 0

/-! ### Helper lemmas: substring search and the bonus sum -/

theorem leadsWith_nil_iff (pat : List Char) : leadsWith [] pat = true ↔ pat = [] := by
  cases pat <;> simp [leadsWith]

theorem leadsWith_append (e : List Char) :
    ∀ {pat l : List Char}, leadsWith l pat = true → leadsWith (l ++ e) pat = true := by
  intro pat
  induction pat with
  | nil => intro l _; cases l <;> simp [leadsWith]
  | cons p ps ih =>
    intro l h
    cases l with
    | nil => simp [leadsWith] at h
    | cons c cs =>
      simp only [leadsWith, Bool.and_eq_true] at h
      simp only [List.cons_append, leadsWith, Bool.and_eq_true]
      exact ⟨h.1, ih h.2⟩

theorem subOccurs_nil_pat : ∀ l : List Char, subOccurs [] l = true
  | [] => rfl
  | _ :: _ => by simp [subOccurs, leadsWith]

theorem subOccurs_append (pat e : List Char) :
    ∀ {l : List Char}, subOccurs pat l = true → subOccurs pat (l ++ e) = true := by
  intro l
  induction l with
  | nil =>
    intro h
    simp only [subOccurs] at h
    have hp : pat = [] := (leadsWith_nil_iff pat).mp h
    subst hp
    exact subOccurs_nil_pat _
  | cons c cs ih =>
    intro h
    simp only [subOccurs, Bool.or_eq_true] at h
    simp only [List.cons_append, subOccurs, Bool.or_eq_true]
    rcases h with h | h
    · exact Or.inl (by simpa [List.cons_append] using leadsWith_append e h)
    · exact Or.inr (ih h)

/-- Appending text to the description never removes a keyword occurrence from
the lowered job text. -/
theorem pyIn_job_text_mono (k job_title desc ext : String)
    (h : pyIn k (job_text_of job_title desc) = true) :
    pyIn k (job_text_of job_title (desc ++ ext)) = true := by
  unfold pyIn job_text_of pyLower at h ⊢
  simp only [String.data_append, List.map_append] at h ⊢
  simpa [List.append_assoc] using
    subOccurs_append k.data (ext.data.map Char.toLower) h

theorem filter_map_const_sum (p : String → Bool) :
    ∀ l : List String, ((l.filter p).map (fun _ => (5 : ℤ))).sum =
      (l.map (fun k => if p k then (5 : ℤ) else 0)).sum := by
  intro l
  induction l with
  | nil => rfl
  | cons a l ih =>
    by_cases h : p a
    · rw [List.filter_cons, if_pos h, List.map_cons, List.sum_cons, ih,
        List.map_cons, List.sum_cons, if_pos h]
    · rw [List.filter_cons, if_neg h, ih, List.map_cons, List.sum_cons,
        if_neg h, zero_add]

theorem bonus_score_eq (t : String) :
    bonus_score t = (bonus_keywords.map (fun k => if pyIn k t then (5 : ℤ) else 0)).sum :=
  filter_map_const_sum _ _

theorem bonus_score_nonneg (t : String) : 0 ≤ bonus_score t := by
  rw [bonus_score_eq]
  apply List.sum_nonneg
  intro x hx
  simp only [List.mem_map] at hx
  obtain ⟨k, _, rfl⟩ := hx
  split <;> norm_num

/-- The bonus is exactly 5 points per distinct bonus keyword occurring in the
job text. -/
theorem bonus_score_count (t : String) :
    bonus_score t = 5 * ((bonus_keywords.filter (fun k => pyIn k t)).length : ℤ) := by
  unfold bonus_score
  rw [List.map_const', List.sum_replicate, nsmul_eq_mul, mul_comm]

theorem bonus_score_mono_append (job_title desc ext : String) :
    bonus_score (job_text_of job_title desc) ≤
      bonus_score (job_text_of job_title (desc ++ ext)) := by
  rw [bonus_score_eq, bonus_score_eq]
  apply List.sum_le_sum
  intro k _
  by_cases h : pyIn k (job_text_of job_title desc)
  · rw [if_pos h, if_pos (pyIn_job_text_mono k job_title desc ext h)]
  · rw [if_neg h]; split <;> norm_num

/-! ### Claim theorems about the Match Scorer -/

/-- **C3**: for every job title, job description and profile skill list, the
match scorer returns an integer in [0,100]: for every similarity value in
[0,1] delivered by the external vectorizer, the TF-IDF-plus-bonus path is
capped at 100 and nonnegative, and the keyword-overlap fallback path taken on
the vectorizer's ValueError is likewise capped at 100 and nonnegative. -/
theorem c3_match_score_in_range (sim : ℚ) (h0 : 0 ≤ sim) (h1 : sim ≤ 1)
    (job_description job_title : String) (user_skills : List String) :
    (0 ≤ calculate_job_match_score (.ok sim) job_description job_title user_skills ∧
        calculate_job_match_score (.ok sim) job_description job_title user_skills ≤ 100) ∧
    (0 ≤ calculate_job_match_score .valueError job_description job_title user_skills ∧
        calculate_job_match_score .valueError job_description job_title user_skills ≤ 100) := by
  constructor
  · have hb := bonus_score_nonneg (job_text_of job_title job_description)
    have hfloor : (0 : ℤ) ≤ pyInt (sim * 100) := by
      rw [pyInt_eq_floor]
      exact Int.floor_nonneg.mpr (by positivity)
    simp only [calculate_job_match_score, scoreAttempt]
    exact ⟨le_min (by linarith) (by norm_num), min_le_right _ _⟩
  · simp only [calculate_job_match_score, scoreAttempt, simple_keyword_match]
    by_cases h : user_skills.length = 0
    · simp [h]
    · simp only [h, if_false]
      refine ⟨le_min ?_ (by norm_num), min_le_right _ _⟩
      rw [pyInt_eq_floor]
      exact Int.floor_nonneg.mpr (by positivity)

/-- Witness for C3 at similarity 9/10 with concrete strings and skills. -/
theorem c3_match_score_in_range_witness :
    (0 : ℚ) ≤ 9/10 ∧ (9/10 : ℚ) ≤ 1 ∧
    ((0 ≤ calculate_job_match_score (.ok (9/10)) "requirements work" "senior analyst" ["sql"] ∧
        calculate_job_match_score (.ok (9/10)) "requirements work" "senior analyst" ["sql"] ≤ 100) ∧
      (0 ≤ calculate_job_match_score .valueError "requirements work" "senior analyst" ["sql"] ∧
        calculate_job_match_score .valueError "requirements work" "senior analyst" ["sql"] ≤ 100)) :=
  ⟨by norm_num, by norm_num,
    c3_match_score_in_range (9/10) (by norm_num) (by norm_num)
      "requirements work" "senior analyst" ["sql"]⟩

/-- **C6**: the scorer never propagates an internal failure: whenever the
scoring attempt ends in an internal error, `calculate_job_match_score`
returns 0 instead (the outer exception handler), and in particular the
empty-profile-skill-list case on the fallback path (a ZeroDivisionError in
Python) yields 0 rather than aborting. -/
theorem c6_failure_yields_zero :
    (∀ (tfidf : TfidfOutcome) (d t : String) (skills : List String) (e : ScoreErr),
        scoreAttempt tfidf d t skills = .error e →
        calculate_job_match_score tfidf d t skills = 0) ∧
    (∀ d t : String, calculate_job_match_score .valueError d t [] = 0) := by
  constructor
  · intro tfidf d t skills e h
    unfold calculate_job_match_score
    rw [h]
  · intro d t
    rfl

/-- Witness for C6: the fallback with an empty skill list really fails
internally, and the returned score is 0. -/
theorem c6_failure_yields_zero_witness :
    scoreAttempt .valueError "desc text" "title text" [] = .error .zeroDivision ∧
    calculate_job_match_score .valueError "desc text" "title text" [] = 0 :=
  ⟨rfl, c6_failure_yields_zero.1 .valueError "desc text" "title text" [] .zeroDivision rfl⟩

/-- **C4 counterexample**: the claim "extending the job text with one more
bonus keyword occurrence never decreases the returned score (until the 100
cap)" is false for the code.  The base score is `int(similarity*100)` for the
cosine similarity delivered by the external TF-IDF vectorizer — a value in
[0,1] by its interface — and nothing keeps that similarity from dropping when
the description is extended.  Here the description "remote" is extended with
one more occurrence of the bonus keyword "remote"; with admissible similarity
outcomes 1 (before) and 0 (after), the returned score drops from 100 to 5. -/
theorem c4_counterexample :
    ("remote" ++ " remote" : String) = "remote remote" ∧
    pyIn "remote" (job_text_of "job" "remote") = true ∧
    calculate_job_match_score (.ok 1) "remote" "job" ["sql"] = 100 ∧
    calculate_job_match_score (.ok 0) ("remote" ++ " remote") "job" ["sql"] = 5 ∧
    calculate_job_match_score (.ok 0) ("remote" ++ " remote") "job" ["sql"] <
      calculate_job_match_score (.ok 1) "remote" "job" ["sql"] := by
  have h1 : pyInt ((1 : ℚ) * 100) = 100 := by rw [pyInt_eq_floor]; norm_num
  have h0 : pyInt ((0 : ℚ) * 100) = 0 := by rw [pyInt_eq_floor]; norm_num
  have e1 : calculate_job_match_score (.ok 1) "remote" "job" ["sql"] = 100 := by
    simp only [calculate_job_match_score, scoreAttempt, h1]
    decide
  have e0 : calculate_job_match_score (.ok 0) ("remote" ++ " remote") "job" ["sql"] = 5 := by
    simp only [calculate_job_match_score, scoreAttempt, h0]
    decide
  refine ⟨rfl, by decide, e1, e0, ?_⟩
  rw [e0, e1]
  norm_num

/-- **C4 (amended)**: each of the fixed bonus keywords present as a
(case-normalized) substring of the job text adds exactly 5 points before the
cap at 100 — the bonus is 5 per distinct present keyword — and with the
external vectorizer's similarity outcome held fixed, extending the job text
(in particular by one more bonus keyword occurrence) never decreases the
returned score. -/
theorem c4_bonus_and_monotonicity (sim : ℚ) (job_title desc ext : String)
    (skills : List String) :
    bonus_score (job_text_of job_title desc) =
      5 * ((bonus_keywords.filter
        (fun k => pyIn k (job_text_of job_title desc))).length : ℤ) ∧
    calculate_job_match_score (.ok sim) desc job_title skills ≤
      calculate_job_match_score (.ok sim) (desc ++ ext) job_title skills := by
  refine ⟨bonus_score_count _, ?_⟩
  simp only [calculate_job_match_score, scoreAttempt]
  exact min_le_min (add_le_add_left (bonus_score_mono_append _ _ _) _) le_rfl

/-! ## Normalizer and Job Store (`clean_job_data`, `save_jobs_to_database`)

The jobspy dataframe is embedded as a list of records; a `none` field embeds
a missing value (NaN).  The SQLite `applications` table is embedded as a list
of `AppRow` in insertion order, with the UNIQUE constraint on `job_id`
realized by the insert-or-ignore logic of `saveStep`. -/

/-- One raw scraped record (a row of the jobspy dataframe). -/
structure RawJob where
  title : Option String
  company : Option String
  location : Option String
  salary : Option String
  job_url : Option String
  description : Option String
  posted_date : Option Int
deriving DecidableEq, Repr

/-- A record after `clean_job_data` (and, once `filter_jobs` has run, after
scoring): the raw columns plus the derived `salary_clean` and `match_score`
columns; `none` in `match_score` embeds an absent column, read back by the
save step as `job.get('match_score', 0)`. -/
structure CleanJob where
  title : Option String
  company : Option String
  location : Option String
  salary : Option String
  job_url : Option String
  description : Option String
  posted_date : Option Int
  salary_clean : Option String
  match_score : Option ℤ
deriving DecidableEq, Repr

/-- Generic leftmost, non-overlapping substring replacement, embedding
Python/pandas `str.replace(pat, rep)` for a literal nonempty pattern.  The
first argument counts characters still to skip from a previous match. -/
def replaceGo (pat rep : List Char) : Nat → List Char → List Char
  | _, [] => []
  | Nat.succ n, _ :: cs => replaceGo pat rep n cs
  | 0, c :: cs =>
    if leadsWith (c :: cs) pat then rep ++ replaceGo pat rep (pat.length - 1) cs
    else c :: replaceGo pat rep 0 cs

def replaceStr (s pat rep : String) : String :=
  ⟨replaceGo pat.data rep.data 0 s.data⟩

/-- Embeds Python `str.strip()`. -/
def stripStr (s : String) : String :=
  ⟨((s.data.dropWhile Char.isWhitespace).reverse.dropWhile Char.isWhitespace).reverse⟩

/-- Embeds `salary.replace('PLN', '').replace(',', '').strip()`. -/
def cleanSalary (s : String) : String :=
  stripStr (replaceStr (replaceStr s "PLN" "") "," "")

/-- Embeds the pandas `str.replace('remote', 'Remote', case=False)` regex
replacement: each case-insensitive occurrence of "remote" becomes "Remote",
leftmost first, non-overlapping. -/
def canonRemoteGo : Nat → List Char → List Char
  | _, [] => []
  | Nat.succ n, _ :: cs => canonRemoteGo n cs
  | 0, c :: cs =>
    if leadsWith ((c :: cs).map Char.toLower) "remote".data then
      "Remote".data ++ canonRemoteGo 5 cs
    else c :: canonRemoteGo 0 cs

def standardizeLocation (s : String) : String := ⟨canonRemoteGo 0 s.data⟩

/-- The intra-batch deduplication of `clean_job_data`:
`drop_duplicates(subset=['title', 'company'], keep='first')` — exact equality
on the full title and company values, first occurrence kept. -/
def dropDuplicatesTC (seen : List (Option String × Option String)) :
    List RawJob → List RawJob
  | [] => []
  | j :: js =>
    if (j.title, j.company) ∈ seen then dropDuplicatesTC seen js
    else j :: dropDuplicatesTC ((j.title, j.company) :: seen) js

/-- Embeds `clean_job_data`: drop exact (title, company) duplicates, derive
`salary_clean`, canonicalize "remote" in the location, and drop records
missing title or company.  (The early return on an empty dataframe is the
identity and is not modeled separately; the pandas column-existence checks
are embedded per record via `Option.map`.) -/
def clean_job_data (jobs : List RawJob) : List CleanJob :=
  let deduped := dropDuplicatesTC [] jobs
  let derived := deduped.map (fun j =>
    ({ title := j.title, company := j.company,
       location := j.location.map standardizeLocation,
       salary := j.salary, job_url := j.job_url, description := j.description,
       posted_date := j.posted_date,
       salary_clean := j.salary.map cleanSalary,
       match_score := none } : CleanJob))
  derived.filter (fun j => j.title.isSome && j.company.isSome)

/-- One row of the SQLite `applications` table. -/
structure AppRow where
  id : ℤ
  job_id : String
  title : String
  company : String
  location : String
  salary_range : String
  job_url : String
  description : String
  application_date : Int
  match_score : ℤ
  status : String
  cv_version : Option String
  cover_letter_path : Option String
  follow_up_date : Option Int
  response_date : Option Int
  interview_date : Option Int
  notes : Option String
  created_at : Int
deriving DecidableEq, Repr

/-- Embeds `s.replace(' ', '_')` (single-character pattern, so a per-character
map). -/
def underscoreSpaces (s : String) : String :=
  ⟨s.data.map (fun c => if c = ' ' then '_' else c)⟩

/-- The identity key of `save_jobs_to_database`:
`f"{job.get('title', '')[:50]}_{job.get('company', '')[:30]}".replace(' ', '_')`. -/
def jobIdOf (title company : String) : String :=
  underscoreSpaces (pySlice title 50 ++ "_" ++ pySlice company 30)

def cleanJid (j : CleanJob) : String :=
  jobIdOf (j.title.getD "") (j.company.getD "")

def rowIds (rows : List AppRow) : List String := rows.map AppRow.job_id

/-- The row written by the `INSERT OR IGNORE` statement: listed columns from
the record (missing values read back as `''` via `.get(..., '')`), `status`
as the literal `'found'`, `application_date` as today's date, autoincrement
`id`, defaulted `created_at`, every other column NULL. -/
def insertRow (today : Int) (j : CleanJob) (newId : ℤ) : AppRow :=
  { id := newId
    job_id := cleanJid j
    title := j.title.getD ""
    company := j.company.getD ""
    location := j.location.getD ""
    salary_range := j.salary.getD ""
    job_url := j.job_url.getD ""
    description := j.description.getD ""
    application_date := today
    match_score := j.match_score.getD 0
    status := "found"
    cv_version := none
    cover_letter_path := none
    follow_up_date := none
    response_date := none
    interview_date := none
    notes := none
    created_at := today }

/-- Connection state during `save_jobs_to_database`: the table rows, the next
autoincrement id, SQLite's cumulative `total_changes` counter of the (fresh)
connection, and the Python-side `new_jobs_count`. -/
structure SaveState where
  rows : List AppRow
  nextId : ℤ
  totalChanges : Nat
  newCount : Nat
deriving Repr

/-- One iteration of the save loop: `INSERT OR IGNORE` keyed by the UNIQUE
`job_id` (a no-op when the key is already present), then
`if conn.total_changes > 0: new_jobs_count += 1` — the test is on the
connection's *cumulative* change counter, not on the effect of this insert. -/
def saveStep (today : Int) (st : SaveState) (j : CleanJob) : SaveState :=
  let jid := cleanJid j
  let st1 :=
    if st.rows.any (fun r => r.job_id == jid) then st
    else
      { st with
        rows := st.rows ++ [insertRow today j st.nextId]
        nextId := st.nextId + 1
        totalChanges := st.totalChanges + 1 }
  if st1.totalChanges > 0 then { st1 with newCount := st1.newCount + 1 } else st1

/-- Embeds `save_jobs_to_database`: fold the save loop over the batch on a
fresh connection (`total_changes` starts at 0) and return the table together
with the logged `new_jobs_count`. -/
def save_jobs_to_database (today : Int) (db : List AppRow) (batch : List CleanJob) :
    List AppRow × Nat :=
  let st := batch.foldl (saveStep today)
    ⟨db, (db.map AppRow.id).foldr max 0 + 1, 0, 0⟩
  (st.rows, st.newCount)

/-! ### Helper lemmas about the save loop -/

theorem mem_rowIds_iff_any (rows : List AppRow) (x : String) :
    x ∈ rowIds rows ↔ rows.any (fun r => r.job_id == x) = true := by
  rw [rowIds, List.any_eq_true]
  constructor
  · intro hx
    obtain ⟨r, hr, he⟩ := List.mem_map.mp hx
    exact ⟨r, hr, by simp [he]⟩
  · rintro ⟨r, hr, he⟩
    exact List.mem_map.mpr ⟨r, hr, by simpa using he⟩

theorem saveStep_rows (today : Int) (st : SaveState) (j : CleanJob) :
    (saveStep today st j).rows =
      if st.rows.any (fun r => r.job_id == cleanJid j) then st.rows
      else st.rows ++ [insertRow today j st.nextId] := by
  by_cases h : st.rows.any (fun r => r.job_id == cleanJid j) <;>
    simp [saveStep, h] <;> split <;> rfl

theorem saveStep_totalChanges (today : Int) (st : SaveState) (j : CleanJob) :
    (saveStep today st j).totalChanges =
      if st.rows.any (fun r => r.job_id == cleanJid j) then st.totalChanges
      else st.totalChanges + 1 := by
  by_cases h : st.rows.any (fun r => r.job_id == cleanJid j) <;>
    simp [saveStep, h] <;> split <;> rfl

theorem saveStep_newCount (today : Int) (st : SaveState) (j : CleanJob) :
    (saveStep today st j).newCount =
      if 0 < (saveStep today st j).totalChanges then st.newCount + 1
      else st.newCount := by
  by_cases h : st.rows.any (fun r => r.job_id == cleanJid j) <;>
    by_cases h2 : 0 < st.totalChanges <;>
    simp [saveStep, h, h2]

theorem saveStep_mem (today : Int) (st : SaveState) (j : CleanJob) {x : String}
    (hx : x ∈ rowIds st.rows) : x ∈ rowIds (saveStep today st j).rows := by
  rw [saveStep_rows]
  split
  · exact hx
  · simpa [rowIds] using Or.inl (by simpa [rowIds] using hx)

theorem saveStep_mem_self (today : Int) (st : SaveState) (j : CleanJob) :
    cleanJid j ∈ rowIds (saveStep today st j).rows := by
  rw [saveStep_rows]
  split
  · next h => exact (mem_rowIds_iff_any _ _).mpr h
  · simp [rowIds, insertRow]

theorem saveStep_nodup (today : Int) (st : SaveState) (j : CleanJob)
    (hn : (rowIds st.rows).Nodup) : (rowIds (saveStep today st j).rows).Nodup := by
  rw [saveStep_rows]
  split
  · exact hn
  · next h =>
    have habs : cleanJid j ∉ rowIds st.rows := by
      rw [mem_rowIds_iff_any]
      simp [h]
    simp only [rowIds, List.map_append, List.map_cons, List.map_nil]
    rw [List.nodup_append]
    exact ⟨hn, List.nodup_singleton _, by
      intro x hx hx2
      simp only [insertRow, List.mem_singleton] at hx2
      exact habs (hx2 ▸ hx)⟩

theorem fold_mem_mono (today : Int) :
    ∀ (l : List CleanJob) (st : SaveState) (x : String), x ∈ rowIds st.rows →
      x ∈ rowIds (l.foldl (saveStep today) st).rows := by
  intro l
  induction l with
  | nil => intro st x hx; exact hx
  | cons j js ih =>
    intro st x hx
    exact ih _ _ (saveStep_mem today st j hx)

theorem fold_mem_of_batch (today : Int) :
    ∀ (l : List CleanJob) (st : SaveState) (j : CleanJob), j ∈ l →
      cleanJid j ∈ rowIds (l.foldl (saveStep today) st).rows := by
  intro l
  induction l with
  | nil => intro st j hj; cases hj
  | cons a as ih =>
    intro st j hj
    rcases List.mem_cons.mp hj with h | h
    · subst h
      exact fold_mem_mono today as _ _ (saveStep_mem_self today st j)
    · exact ih _ _ h

theorem fold_nodup (today : Int) :
    ∀ (l : List CleanJob) (st : SaveState), (rowIds st.rows).Nodup →
      (rowIds (l.foldl (saveStep today) st).rows).Nodup := by
  intro l
  induction l with
  | nil => intro st h; exact h
  | cons j js ih => intro st h; exact ih _ (saveStep_nodup today st j h)

theorem fold_rows_of_mem (today : Int) :
    ∀ (l : List CleanJob) (st : SaveState),
      (∀ j ∈ l, cleanJid j ∈ rowIds st.rows) →
      (l.foldl (saveStep today) st).rows = st.rows := by
  intro l
  induction l with
  | nil => intro st _; rfl
  | cons j js ih =>
    intro st h
    have hrows : (saveStep today st j).rows = st.rows := by
      rw [saveStep_rows, if_pos ((mem_rowIds_iff_any _ _).mp (h j (List.mem_cons_self _ _)))]
    calc ((j :: js).foldl (saveStep today) st).rows
        = (js.foldl (saveStep today) (saveStep today st j)).rows := rfl
      _ = (saveStep today st j).rows := ih _ (by
            intro a ha
            rw [hrows]
            exact h a (List.mem_cons_of_mem _ ha))
      _ = st.rows := hrows

theorem fold_newCount_of_pos (today : Int) :
    ∀ (l : List CleanJob) (st : SaveState), 0 < st.totalChanges →
      (l.foldl (saveStep today) st).newCount = st.newCount + l.length := by
  intro l
  induction l with
  | nil => intro st _; rfl
  | cons j js ih =>
    intro st h
    have htc : 0 < (saveStep today st j).totalChanges := by
      rw [saveStep_totalChanges]
      split
      · exact h
      · omega
    have hnc : (saveStep today st j).newCount = st.newCount + 1 := by
      rw [saveStep_newCount, if_pos htc]
    calc ((j :: js).foldl (saveStep today) st).newCount
        = (js.foldl (saveStep today) (saveStep today st j)).newCount := rfl
      _ = (saveStep today st j).newCount + js.length := ih _ htc
      _ = st.newCount + (j :: js).length := by rw [hnc]; simp [List.length_cons]; omega

theorem count_jid_eq_one {rows : List AppRow} (hn : (rowIds rows).Nodup)
    {k : String} (hk : k ∈ rowIds rows) :
    (rows.filter (fun r => r.job_id == k)).length = 1 := by
  have h1 : (rows.filter (fun r => r.job_id == k)).length =
      rows.countP (fun r => r.job_id == k) :=
    (List.countP_eq_length_filter _ _).symm
  have h2 : rows.countP (fun r => r.job_id == k) =
      (rowIds rows).countP (fun x => x == k) := by
    rw [rowIds, List.countP_map]
    rfl
  have h3 : (rowIds rows).countP (fun x => x == k) = List.count k (rowIds rows) := rfl
  rw [h1, h2, h3]
  exact List.count_eq_one_of_mem hn hk

/-! ### Claim theorems about deduplication and persistence -/

/-- Two raw records whose titles agree on the first 50 characters only after
case normalization (`Senior Business Analyst` vs `senior business analyst`),
with an identical company. -/
def c1raw1 : RawJob :=
  { title := some "Senior Business Analyst", company := some "Acme",
    location := none, salary := none, job_url := none,
    description := some "first posting", posted_date := none }

def c1raw2 : RawJob :=
  { title := some "senior business analyst", company := some "Acme",
    location := none, salary := none, job_url := none,
    description := some "second posting", posted_date := none }

/-- **C1 counterexample**: the claim requires that two raw records whose
titles agree on their first 50 characters *under case normalization* are
stored as one Job row with a *case-normalized* key.  The code's key
`f"{title[:50]}_{company[:30]}".replace(' ', '_')` is not case-normalized:
ingesting the two records above (identical up to letter case) stores two
rows with two distinct, case-preserving keys. -/
theorem c1_counterexample :
    pyLower (pySlice (c1raw1.title.getD "") 50) =
      pyLower (pySlice (c1raw2.title.getD "") 50) ∧
    pyLower (pySlice (c1raw1.company.getD "") 30) =
      pyLower (pySlice (c1raw2.company.getD "") 30) ∧
    (save_jobs_to_database 0 [] (clean_job_data [c1raw1, c1raw2])).1.length = 2 ∧
    rowIds (save_jobs_to_database 0 [] (clean_job_data [c1raw1, c1raw2])).1 =
      ["Senior_Business_Analyst_Acme", "senior_business_analyst_Acme"] := by
  refine ⟨by decide, by decide, by decide, by decide⟩

/-- **C1 (amended)**: for every pair of batch records whose titles agree
*exactly* (case-sensitively) on their first 50 characters and whose companies
agree exactly on their first 30 characters, one ingestion stores exactly one
Job row for them; the stored identity key equals the concatenation of the
two prefixes joined and space-separated by an underscore (no case
normalization), and the key is a deterministic function of title and company,
so repeated ingestion of the same posting always produces the same key. -/
theorem c1_exact_fingerprint_single_row (today : Int) (db : List AppRow)
    (batch : List CleanJob) (hdb : (rowIds db).Nodup) (j1 j2 : CleanJob)
    (h1 : j1 ∈ batch) (h2 : j2 ∈ batch)
    (ht : pySlice (j1.title.getD "") 50 = pySlice (j2.title.getD "") 50)
    (hc : pySlice (j1.company.getD "") 30 = pySlice (j2.company.getD "") 30) :
    cleanJid j1 = cleanJid j2 ∧
    cleanJid j1 = underscoreSpaces
      (pySlice (j1.title.getD "") 50 ++ "_" ++ pySlice (j1.company.getD "") 30) ∧
    ((save_jobs_to_database today db batch).1.filter
      (fun r => r.job_id == cleanJid j1)).length = 1 := by
  refine ⟨by unfold cleanJid jobIdOf; rw [ht, hc], rfl, ?_⟩
  have hnodup : (rowIds (save_jobs_to_database today db batch).1).Nodup :=
    fold_nodup today batch _ hdb
  have hmem : cleanJid j1 ∈ rowIds (save_jobs_to_database today db batch).1 :=
    fold_mem_of_batch today batch _ j1 h1
  exact count_jid_eq_one hnodup hmem

/-- Witness records for the amended C1: identical title and company, but
different descriptions and scores. -/
def c1job1 : CleanJob :=
  { title := some "Senior Business Analyst", company := some "TechCorp",
    location := none, salary := none, job_url := none,
    description := some "first", posted_date := none,
    salary_clean := none, match_score := some 80 }

def c1job2 : CleanJob :=
  { title := some "Senior Business Analyst", company := some "TechCorp",
    location := none, salary := none, job_url := none,
    description := some "second", posted_date := none,
    salary_clean := none, match_score := some 90 }

/-- Witness for the amended C1: two records with identical title/company but
different descriptions are stored as exactly one row. -/
theorem c1_exact_fingerprint_single_row_witness :
    ((rowIds []).Nodup ∧
      pySlice (c1job1.title.getD "") 50 = pySlice (c1job2.title.getD "") 50 ∧
      pySlice (c1job1.company.getD "") 30 = pySlice (c1job2.company.getD "") 30) ∧
    ((save_jobs_to_database 0 [] [c1job1, c1job2]).1.filter
      (fun r => r.job_id == cleanJid c1job1)).length = 1 :=
  ⟨⟨by decide, rfl, rfl⟩,
    (c1_exact_fingerprint_single_row 0 [] [c1job1, c1job2] (by decide) c1job1 c1job2
      (by simp) (by simp) rfl rfl).2.2⟩

/-- **C9**: ingesting the same batch twice yields the same stored Job rows
(every field, match_score included) as ingesting it once: the save step is
insert-if-absent keyed by the fingerprint, so a second sighting of an
already-stored fingerprint changes nothing — even at a later date. -/
theorem c9_ingest_idempotent (today today2 : Int) (db : List AppRow)
    (batch : List CleanJob) :
    (save_jobs_to_database today2
        (save_jobs_to_database today db batch).1 batch).1 =
      (save_jobs_to_database today db batch).1 := by
  unfold save_jobs_to_database
  apply fold_rows_of_mem
  intro j hj
  exact fold_mem_of_batch today batch _ j hj

/-- **C10**: whenever the first record of a batch inserts a new row, the
connection's cumulative `total_changes` counter is positive from then on, so
the save step's `new_jobs_count` counts *every* remaining record — duplicates
ignored by `INSERT OR IGNORE` included — and the returned count equals the
batch size. -/
theorem c10_new_count_counts_batch (today : Int) (db : List AppRow)
    (j : CleanJob) (rest : List CleanJob) (hnew : cleanJid j ∉ rowIds db) :
    (save_jobs_to_database today db (j :: rest)).2 = (j :: rest).length := by
  unfold save_jobs_to_database
  have hany : db.any (fun r => r.job_id == cleanJid j) = false := by
    rw [Bool.eq_false_iff]
    intro htrue
    exact hnew ((mem_rowIds_iff_any _ _).mpr htrue)
  simp only [List.foldl_cons]
  set st0 : SaveState := ⟨db, (db.map AppRow.id).foldr max 0 + 1, 0, 0⟩ with hst0
  have h0 : st0.rows = db := rfl
  have htc : (saveStep today st0 j).totalChanges = 1 := by
    rw [saveStep_totalChanges, h0, hany]
    simp
  have hnc : (saveStep today st0 j).newCount = 1 := by
    rw [saveStep_newCount, if_pos (by rw [htc]; norm_num)]
  rw [fold_newCount_of_pos today rest _ (by rw [htc]; norm_num), hnc]
  simp [Nat.add_comm]

/-- The witness record for C10: ingested twice in one batch. -/
def c10job : CleanJob :=
  { title := some "Data Analyst", company := some "Acme",
    location := none, salary := none, job_url := none,
    description := none, posted_date := none,
    salary_clean := none, match_score := some 70 }

/-- Witness for C10: a batch of two copies of the same record over an empty
table reports two "new" jobs while only one row is stored. -/
theorem c10_new_count_counts_batch_witness :
    (cleanJid c10job ∉ rowIds []) ∧
    (save_jobs_to_database 0 [] [c10job, c10job]).2 = 2 ∧
    (save_jobs_to_database 0 [] [c10job, c10job]).1.length = 1 :=
  ⟨by decide,
    c10_new_count_counts_batch 0 [] _ _ (by decide),
    by decide⟩

/-! ## Filter & Ranker (`filter_jobs`) -/

/-- The fields of `config['search_criteria']` read by `filter_jobs`:
`locations` is accessed directly, `blacklisted_companies` only when present
(`'blacklisted_companies' in criteria`), `min_match_score` via
`.get('min_match_score', 60)`. -/
structure Criteria where
  locations : List String
  blacklisted_companies : Option (List String)
  min_match_score : Option ℤ
deriving Repr

/-- Embeds the pandas `str.contains('|'.join(pats), case=False, na=False)`
test on a present (non-NaN) string: for literal patterns the regex
alternation matches iff some pattern occurs as a case-insensitive substring,
and joining the empty list yields the empty pattern, which matches every
present value. -/
def containsJoined (pats : List String) (s : String) : Bool :=
  pats.isEmpty || pats.any (fun p => pyIn (pyLower p) (pyLower s))

/-- The descending match_score comparison used by
`sort_values('match_score', ascending=False)`. -/
def scoreDescOrder (a b : CleanJob) : Prop :=
  b.match_score.getD 0 ≤ a.match_score.getD 0

instance : DecidableRel scoreDescOrder :=
  fun _ _ => inferInstanceAs (Decidable (_ ≤ _))

instance : IsTotal CleanJob scoreDescOrder :=
  ⟨fun a b => le_total (b.match_score.getD 0) (a.match_score.getD 0)⟩

instance : IsTrans CleanJob scoreDescOrder :=
  ⟨fun _ _ _ h1 h2 => le_trans h2 h1⟩

/-- The location rule: the row's location, when present, matches the joined
location pattern; a missing location fails (`na=False`). -/
def locationPass (locs : List String) (j : CleanJob) : Bool :=
  match j.location with
  | some l => containsJoined locs l
  | none => false

/-- The blacklist test: the row's company, when present, matches the joined
blacklist pattern; a missing company does not match (`na=False`). -/
def companyBlacklisted (bl : List String) (j : CleanJob) : Bool :=
  match j.company with
  | some c => containsJoined bl c
  | none => false

/-- Embeds `filter_jobs`.  The dataframe-level column-presence checks
`'location' in filtered_jobs.columns` and `'description' in
filtered_jobs.columns` are the flags `hasLocationCol` and
`hasDescriptionCol`; the per-row scoring call (`calculate_job_match_score`
on the row's description and title, with its external TF-IDF outcome) is the
function parameter `score`; rows score 50 when the description column is
absent.  `str.contains(..., na=False)` makes a missing location fail the
location test and a missing company pass the (negated) blacklist test.  The
final `sort_values('match_score', ascending=False)` is modeled by a sort
with respect to `scoreDescOrder`; on the short batches evaluated here the
pandas sort (numpy insertion sort for short arrays) agrees with the model's
stable insertion sort. -/
def filter_jobs (hasLocationCol hasDescriptionCol : Bool) (score : CleanJob → ℤ)
    (criteria : Criteria) (jobs : List CleanJob) : List CleanJob :=
  let step1 :=
    if hasLocationCol then jobs.filter (locationPass criteria.locations)
    else jobs
  let step2 :=
    match criteria.blacklisted_companies with
    | some bl => step1.filter (fun j => !(companyBlacklisted bl j))
    | none => step1
  let scored := step2.map (fun (j : CleanJob) =>
    { j with match_score := some (if hasDescriptionCol then score j else 50) })
  let min_score := criteria.min_match_score.getD 60
  let step3 := scored.filter (fun j => min_score ≤ j.match_score.getD 0)
  step3.insertionSort scoreDescOrder

/-- The four example jobs of the spec's filter-correctness property, with
their stated scores carried in `match_score` and read back by the example
scorer. -/
def c7score : CleanJob → ℤ := fun j => j.match_score.getD 0

def c7crit : Criteria := ⟨["Remote", "Warsaw"], some ["Acme"], some 70⟩

def c7job1 : CleanJob :=
  { title := some "BA", company := some "Acme Corp",
    location := some "Acme Remote Office", salary := none, job_url := none,
    description := some "d", posted_date := none, salary_clean := none,
    match_score := some 80 }

def c7job2 : CleanJob :=
  { title := some "BA", company := some "Globex",
    location := some "Krakow", salary := none, job_url := none,
    description := some "d", posted_date := none, salary_clean := none,
    match_score := some 90 }

def c7job3 : CleanJob :=
  { title := some "BA", company := some "Initech",
    location := some "Remote", salary := none, job_url := none,
    description := some "d", posted_date := none, salary_clean := none,
    match_score := some 65 }

def c7job4 : CleanJob :=
  { title := some "BA", company := some "Globex",
    location := some "Warsaw", salary := none, job_url := none,
    description := some "d", posted_date := none, salary_clean := none,
    match_score := some 75 }

/-- **C7**: with the location and description columns present and a blacklist
configured, the filter stage keeps exactly the jobs passing all three rules —
location present and matching an accepted location substring
(case-insensitively; missing locations are dropped), company not matching any
blacklisted substring, and score at least the configured minimum (default 60
when unset) — each kept row carrying its assigned score.  In particular the
four example jobs of the spec under locations=["Remote","Warsaw"],
min_score=70, blacklist=["Acme"] are excluded/included as stated. -/
theorem c7_filter_rules (score : CleanJob → ℤ) (locs bl : List String)
    (ms : Option ℤ) (jobs : List CleanJob) :
    (∀ r, r ∈ filter_jobs true true score ⟨locs, some bl, ms⟩ jobs ↔
      ∃ j ∈ jobs, locationPass locs j = true ∧ companyBlacklisted bl j = false ∧
        ms.getD 60 ≤ score j ∧ r = { j with match_score := some (score j) }) ∧
    filter_jobs true true c7score c7crit [c7job1, c7job2, c7job3, c7job4] =
      [{ c7job4 with match_score := some 75 }] := by
  constructor
  · intro r
    simp only [filter_jobs, List.mem_insertionSort, List.mem_filter, List.mem_map,
      if_true, Bool.not_eq_true]
    constructor
    · rintro ⟨⟨j, ⟨⟨hj, h1⟩, h2⟩, rfl⟩, h3⟩
      refine ⟨j, hj, h1, by simpa using h2, ?_, rfl⟩
      simpa using h3
    · rintro ⟨j, hj, h1, h2, h3, rfl⟩
      exact ⟨⟨j, ⟨⟨hj, h1⟩, by simpa using h2⟩, rfl⟩, by simpa using h3⟩
  · decide

/-- Jobs with equal scores but different posted dates, the older one first in
the batch; both pass every filter. -/
def c8jobOld : CleanJob :=
  { title := some "BA", company := some "Globex",
    location := some "Remote", salary := none, job_url := none,
    description := some "d", posted_date := some 100, salary_clean := none,
    match_score := some 80 }

def c8jobNew : CleanJob :=
  { title := some "BA2", company := some "Hooli",
    location := some "Remote", salary := none, job_url := none,
    description := some "d", posted_date := some 200, salary_clean := none,
    match_score := some 80 }

/-- **C8 counterexample**: the claim requires equal-score ties to be broken
by the more recent `posted_date` first.  `filter_jobs` sorts by
`sort_values('match_score', ascending=False)` alone and never reads
`posted_date`: for this two-element batch (where the pandas sort, numpy
insertion sort on short arrays, keeps input order on ties, as does the
model's stable sort) the job posted at day 100 stays ahead of the job posted
at day 200 despite the equal scores. -/
theorem c8_counterexample :
    c8jobOld.posted_date = some 100 ∧ c8jobNew.posted_date = some 200 ∧
    c8jobOld.match_score = c8jobNew.match_score ∧
    filter_jobs true true c7score ⟨["Remote"], some ["Acme"], some 60⟩
        [c8jobOld, c8jobNew] =
      [{ c8jobOld with match_score := some 80 },
       { c8jobNew with match_score := some 80 }] := by
  refine ⟨rfl, rfl, rfl, by decide⟩

/-- **C8 (amended)**: the ranked sequence produced by `filter_jobs` is
ordered descending by `match_score`; no posted_date tie-break is applied
(ties are left in the sort's internal order, which the code does not
specify). -/
theorem c8_sorted_descending (hasLocationCol hasDescriptionCol : Bool)
    (score : CleanJob → ℤ) (criteria : Criteria) (jobs : List CleanJob) :
    (filter_jobs hasLocationCol hasDescriptionCol score criteria jobs).Pairwise
      (fun a b => b.match_score.getD 0 ≤ a.match_score.getD 0) := by
  unfold filter_jobs
  exact List.sorted_insertionSort scoreDescOrder _

/-! ## Workflow Trigger: follow-up sweep (`check_follow_ups`) -/

/-- The SQL selection of `check_follow_ups`:
`application_date <= (now - 7 days) AND status = 'applied' AND
response_date IS NULL`. -/
def needsFollowUp (today : Int) (r : AppRow) : Bool :=
  decide (r.application_date ≤ today - 7) && r.status == "applied" &&
    r.response_date.isNone

/-- Embeds `check_follow_ups`: each selected row is updated by primary key to
status `follow_up_needed` with `follow_up_date = now`; since ids are unique,
the per-row update loop is the per-row map below. -/
def check_follow_ups (today : Int) (db : List AppRow) : List AppRow :=
  db.map (fun r =>
    if needsFollowUp today r then
      { r with status := "follow_up_needed", follow_up_date := some today }
    else r)

theorem needsFollowUp_iff (today : Int) (r : AppRow) :
    needsFollowUp today r = true ↔
      (r.status = "applied" ∧ r.application_date ≤ today - 7 ∧
        r.response_date = none) := by
  simp only [needsFollowUp, Bool.and_eq_true, decide_eq_true_eq, beq_iff_eq,
    Option.isNone_iff_eq_none]
  tauto

/-- **C5**: the follow-up sweep transitions exactly the rows with status
`applied`, application_date at least 7 days before now and no response_date,
setting status to `follow_up_needed` and follow_up_date to now; every other
row is unchanged; and an immediate second run changes nothing, because the
transitioned rows no longer satisfy the status predicate. -/
theorem c5_follow_up_sweep (today : Int) (db : List AppRow) :
    (check_follow_ups today db).length = db.length ∧
    (∀ i (h : i < db.length),
      (check_follow_ups today db).get ⟨i, by simpa [check_follow_ups] using h⟩ =
        (if (db.get ⟨i, h⟩).status = "applied" ∧
            (db.get ⟨i, h⟩).application_date ≤ today - 7 ∧
            (db.get ⟨i, h⟩).response_date = none
         then { db.get ⟨i, h⟩ with status := "follow_up_needed", follow_up_date := some today }
         else db.get ⟨i, h⟩)) ∧
    check_follow_ups today (check_follow_ups today db) =
      check_follow_ups today db := by
  refine ⟨by simp [check_follow_ups], ?_, ?_⟩
  · intro i h
    have hg : (check_follow_ups today db).get
        ⟨i, by simpa [check_follow_ups] using h⟩ =
        (fun r => if needsFollowUp today r then
          { r with status := "follow_up_needed", follow_up_date := some today }
         else r) (db.get ⟨i, h⟩) := List.get_map _
    rw [hg]
    dsimp only
    by_cases hn : needsFollowUp today (db.get ⟨i, h⟩)
    · rw [if_pos hn, if_pos ((needsFollowUp_iff today _).mp hn)]
    · rw [if_neg hn, if_neg (fun hc => hn ((needsFollowUp_iff today _).mpr hc))]
  · unfold check_follow_ups
    rw [List.map_map]
    apply List.map_congr_left
    intro r _
    by_cases hn : needsFollowUp today r
    · have h2 : needsFollowUp today
          { r with status := "follow_up_needed", follow_up_date := some today } = false := by
        rw [Bool.eq_false_iff]
        intro hc
        have := (needsFollowUp_iff today _).mp hc
        simp at this
      simp [Function.comp, hn, h2]
    · simp [Function.comp, hn]

def c5row1 : AppRow :=
  { id := 1, job_id := "a_b", title := "a", company := "b", location := "",
    salary_range := "", job_url := "", description := "",
    application_date := 0, match_score := 80, status := "applied",
    cv_version := none, cover_letter_path := none, follow_up_date := none,
    response_date := none, interview_date := none, notes := none,
    created_at := 0 }

def c5row2 : AppRow :=
  { id := 2, job_id := "c_d", title := "c", company := "d", location := "",
    salary_range := "", job_url := "", description := "",
    application_date := 0, match_score := 80, status := "applied",
    cv_version := none, cover_letter_path := none, follow_up_date := none,
    response_date := some 5, interview_date := none, notes := none,
    created_at := 0 }

/-- Witness for C5: a job applied 10 days ago without response transitions;
one with a response date does not. -/
theorem c5_follow_up_sweep_witness :
    (check_follow_ups 10 [c5row1, c5row2]).get ⟨0, by decide⟩ =
      { c5row1 with status := "follow_up_needed", follow_up_date := some 10 } ∧
    (check_follow_ups 10 [c5row1, c5row2]).get ⟨1, by decide⟩ = c5row2 := by
  have h := (c5_follow_up_sweep 10 [c5row1, c5row2]).2.1
  constructor
  · rw [h 0 (by decide), if_pos (by decide)]
    rfl
  · rw [h 1 (by decide), if_neg (by decide)]
    rfl

/-! ## Workflow Trigger: high-priority processing
(`get_high_priority_jobs`, `process_high_priority_jobs`) -/

/-- The SQL ordering `ORDER BY match_score DESC, created_at DESC` of
`get_high_priority_jobs`. -/
def hpOrder (a b : AppRow) : Prop :=
  b.match_score < a.match_score ∨
    (a.match_score = b.match_score ∧ b.created_at ≤ a.created_at)

instance : DecidableRel hpOrder :=
  fun _ _ => inferInstanceAs (Decidable (_ ∨ _))

/-- Embeds `get_high_priority_jobs`:
`SELECT * WHERE status = 'found' AND match_score >= 85
 ORDER BY match_score DESC, created_at DESC LIMIT 10`. -/
def get_high_priority_jobs (db : List AppRow) : List AppRow :=
  (((db.filter (fun r => r.status == "found" && decide (85 ≤ r.match_score))).insertionSort
    hpOrder).take 10)

/-- The `UPDATE applications SET status = 'ready_to_apply', cv_version = ?,
cover_letter_path = ? WHERE id = ?` statement of
`process_high_priority_jobs`. -/
def updateJobMaterials (db : List AppRow) (theId : ℤ) (cv cl : Option String) :
    List AppRow :=
  db.map (fun r =>
    if r.id = theId then
      { r with
        status := "ready_to_apply"
        cv_version := cv
        cover_letter_path := cl }
    else r)

/-- Embeds `process_high_priority_jobs`.  The external generation calls are
the oracles `optimizeCv` (applied to the job's description and title, like
`optimize_cv_for_job`) and `genCoverLetter` (applied to the job row, like
`generate_cover_letter`); a `none` result embeds the Python `None` those
functions return when generation fails inside their own exception handlers.
The update statement runs unconditionally for every selected job. -/
def process_high_priority_jobs (optimizeCv : String → String → Option String)
    (genCoverLetter : AppRow → Option String) (db : List AppRow) :
    List AppRow :=
  (get_high_priority_jobs db).foldl
    (fun d job => updateJobMaterials d job.id
      (optimizeCv job.description job.title) (genCoverLetter job)) db

/-- The pointwise effect on one row of running the update loop over the
selected list `S`. -/
def applyUpdates (optimizeCv : String → String → Option String)
    (genCoverLetter : AppRow → Option String) (S : List AppRow) (r : AppRow) :
    AppRow :=
  S.foldl (fun x job =>
    if x.id = job.id then
      { x with
        status := "ready_to_apply"
        cv_version := optimizeCv job.description job.title
        cover_letter_path := genCoverLetter job }
    else x) r

theorem applyUpdates_cons (optimizeCv : String → String → Option String)
    (genCoverLetter : AppRow → Option String) (job : AppRow) (S : List AppRow)
    (r : AppRow) :
    applyUpdates optimizeCv genCoverLetter (job :: S) r =
      applyUpdates optimizeCv genCoverLetter S
        (if r.id = job.id then
          { r with
            status := "ready_to_apply"
            cv_version := optimizeCv job.description job.title
            cover_letter_path := genCoverLetter job }
        else r) := rfl

theorem fold_update_eq_map (optimizeCv : String → String → Option String)
    (genCoverLetter : AppRow → Option String) :
    ∀ (S db : List AppRow),
      S.foldl (fun d job => updateJobMaterials d job.id
          (optimizeCv job.description job.title) (genCoverLetter job)) db =
        db.map (applyUpdates optimizeCv genCoverLetter S) := by
  intro S
  induction S with
  | nil =>
    intro db
    show db = db.map (applyUpdates optimizeCv genCoverLetter [])
    have h : db.map (applyUpdates optimizeCv genCoverLetter []) = db.map id :=
      List.map_congr_left (fun r _ => rfl)
    rw [h, List.map_id]
  | cons job S ih =>
    intro db
    rw [List.foldl_cons, ih, updateJobMaterials, List.map_map]
    apply List.map_congr_left
    intro r _
    rfl

theorem applyUpdates_id (optimizeCv : String → String → Option String)
    (genCoverLetter : AppRow → Option String) :
    ∀ (S : List AppRow) (r : AppRow),
      (applyUpdates optimizeCv genCoverLetter S r).id = r.id := by
  intro S
  induction S with
  | nil => intro r; rfl
  | cons job S ih =>
    intro r
    rw [applyUpdates_cons, ih]
    by_cases h : r.id = job.id
    · rw [if_pos h]
    · rw [if_neg h]

theorem applyUpdates_skip (optimizeCv : String → String → Option String)
    (genCoverLetter : AppRow → Option String) :
    ∀ (S : List AppRow) (r : AppRow), (∀ job ∈ S, r.id ≠ job.id) →
      applyUpdates optimizeCv genCoverLetter S r = r := by
  intro S
  induction S with
  | nil => intro r _; rfl
  | cons job S ih =>
    intro r h
    rw [applyUpdates_cons, if_neg (h job (List.mem_cons_self _ _))]
    exact ih r (fun a ha => h a (List.mem_cons_of_mem _ ha))

theorem applyUpdates_of_mem (optimizeCv : String → String → Option String)
    (genCoverLetter : AppRow → Option String) :
    ∀ (S : List AppRow), (S.map AppRow.id).Nodup →
      ∀ (j : AppRow), j ∈ S → ∀ (r : AppRow), r.id = j.id →
        applyUpdates optimizeCv genCoverLetter S r =
          { r with
            status := "ready_to_apply"
            cv_version := optimizeCv j.description j.title
            cover_letter_path := genCoverLetter j } := by
  intro S
  induction S with
  | nil => intro _ j hj; cases hj
  | cons a S ih =>
    intro hno j hj r hid
    have hno2 : (S.map AppRow.id).Nodup := (List.nodup_cons.mp hno).2
    have hansa : a.id ∉ S.map AppRow.id := (List.nodup_cons.mp hno).1
    rcases List.mem_cons.mp hj with h | h
    · subst h
      rw [applyUpdates_cons, if_pos hid]
      apply applyUpdates_skip
      intro job hjob hcontra
      have hrj : r.id = job.id := hcontra
      have hja : job.id = j.id := by rw [← hrj]; exact hid
      exact hansa (List.mem_map.mpr ⟨job, hjob, hja⟩)
    · have hne : r.id ≠ a.id := by
        rw [hid]
        intro heq
        exact hansa (heq ▸ List.mem_map.mpr ⟨j, h, rfl⟩)
      rw [applyUpdates_cons, if_neg hne]
      exact ih hno2 j h r hid

theorem hp_selected_ids_nodup (db : List AppRow)
    (hids : (db.map AppRow.id).Nodup) :
    ((get_high_priority_jobs db).map AppRow.id).Nodup := by
  have h1 : ((db.filter
      (fun r => r.status == "found" && decide (85 ≤ r.match_score))).map
        AppRow.id).Nodup :=
    ((List.filter_sublist db).map AppRow.id).nodup hids
  have h2 : (((db.filter
      (fun r => r.status == "found" && decide (85 ≤ r.match_score))).insertionSort
        hpOrder).map AppRow.id).Nodup := by
    refine (List.Perm.nodup_iff ?_).mpr h1
    exact (List.perm_insertionSort hpOrder _).map AppRow.id
  exact ((List.take_sublist 10 _).map AppRow.id).nodup h2

theorem hp_selected_sub (db : List AppRow) {j : AppRow}
    (hj : j ∈ get_high_priority_jobs db) : j ∈ db := by
  have h1 := List.take_subset 10 _ hj
  have h2 := (List.perm_insertionSort hpOrder _).subset h1
  exact List.mem_of_mem_filter h2

def c2row : AppRow :=
  { id := 1, job_id := "ba_acme", title := "Senior BA", company := "Acme",
    location := "Remote", salary_range := "", job_url := "",
    description := "desc", application_date := 0, match_score := 90,
    status := "found", cv_version := none, cover_letter_path := none,
    follow_up_date := none, response_date := none, interview_date := none,
    notes := none, created_at := 0 }

/-- **C2 counterexample**: the claim requires a job whose CV optimization
fails (`optimize_cv_for_job` returns `None`) to stay in `found` with fields
unchanged.  The code updates the row unconditionally: a selected job whose
CV generation fails still advances to `ready_to_apply`, with `cv_version`
stored as NULL. -/
theorem c2_counterexample :
    get_high_priority_jobs [c2row] = [c2row] ∧
    process_high_priority_jobs (fun _ _ => none) (fun _ => some "cl.txt")
        [c2row] =
      [{ c2row with
          status := "ready_to_apply"
          cv_version := none
          cover_letter_path := some "cl.txt" }] ∧
    ¬ (process_high_priority_jobs (fun _ _ => none) (fun _ => some "cl.txt")
        [c2row] = [c2row]) := by
  refine ⟨by decide, by decide, by decide⟩

/-- **C2 (amended)**: for every job selected in the high-priority pass, the
pass stores both artifact outcomes and advances the status to
`ready_to_apply` *unconditionally* — also when one or both generation calls
fail, in which case the failed artifact reference is stored as NULL; a
failing generation does not keep the job in `found`. -/
theorem c2_advances_unconditionally
    (optimizeCv : String → String → Option String)
    (genCoverLetter : AppRow → Option String) (db : List AppRow)
    (hids : (db.map AppRow.id).Nodup) (j : AppRow)
    (hj : j ∈ get_high_priority_jobs db) (r : AppRow)
    (hr : r ∈ process_high_priority_jobs optimizeCv genCoverLetter db)
    (hid : r.id = j.id) :
    r.status = "ready_to_apply" ∧
    r.cv_version = optimizeCv j.description j.title ∧
    r.cover_letter_path = genCoverLetter j := by
  rw [process_high_priority_jobs, fold_update_eq_map] at hr
  obtain ⟨r0, hr0, rfl⟩ := List.mem_map.mp hr
  have hno := hp_selected_ids_nodup db hids
  have hr0id : r0.id = j.id := by
    rw [← applyUpdates_id optimizeCv genCoverLetter (get_high_priority_jobs db) r0]
    exact hid
  rw [applyUpdates_of_mem optimizeCv genCoverLetter _ hno j hj r0 hr0id]
  exact ⟨rfl, rfl, rfl⟩

/-- The row of `c2row` after the pass with a failing CV generation. -/
def c2rowAfter : AppRow :=
  { c2row with
    status := "ready_to_apply"
    cv_version := none
    cover_letter_path := some "cl.txt" }

/-- Witness for the amended C2: over a one-row table with a failing CV
generation, the selected job's row ends `ready_to_apply` with a NULL
`cv_version` and the generated cover-letter path. -/
theorem c2_advances_unconditionally_witness :
    (([c2row].map AppRow.id).Nodup ∧ c2row ∈ get_high_priority_jobs [c2row] ∧
      c2rowAfter ∈
        process_high_priority_jobs (fun _ _ => none) (fun _ => some "cl.txt")
          [c2row]) ∧
    c2rowAfter.status = "ready_to_apply" ∧
    c2rowAfter.cv_version = none ∧
    c2rowAfter.cover_letter_path = some "cl.txt" :=
  ⟨⟨by decide, by decide, by decide⟩,
    c2_advances_unconditionally (fun _ _ => none) (fun _ => some "cl.txt")
      [c2row] (by decide) c2row (by decide) _ (by decide) rfl⟩

end JobSearch
